import Mathlib

/- Verification development for the document OCR job backend
   (backend/jobs: models.py, services.py, views.py, tasks.py).
   Machine arithmetic is embedded with Int and Rat; timestamps are
   abstracted as natural-number instants; persisted Job rows are
   collected into traces of observed states. -/

/-- Job.Status (backend/jobs/models.py). -/
inductive Status
  | pending
  | running
  | finished
  | failed
  | canceled
  deriving DecidableEq

/-- The mutable persisted fields of one Job row (backend/jobs/models.py). -/
structure Job where
  id : String
  status : Status
  progress : Int
  error_message : String
  rq_job_id : String
  started_at : Option Nat
  finished_at : Option Nat
  deriving DecidableEq

/-- Job.mark_running (models.py): become running, stamping started_at once,
only when not already running. -/
def mark_running (now : Nat) (j : Job) : Job :=
  if j.status ≠ Status.running then
    { j with status := Status.running,
             started_at := if j.started_at = none then some now else j.started_at }
  else j

/-- Job.mark_finished (models.py): force progress to 100 and stamp finished_at. -/
def mark_finished (now : Nat) (j : Job) : Job :=
  { j with status := Status.finished, progress := 100, finished_at := some now }

/-- Job.mark_failed (models.py): record the message when truthy (non-empty)
and stamp finished_at. -/
def mark_failed (now : Nat) (message : Option String) (j : Job) : Job :=
  { j with status := Status.failed,
           error_message := match message with
             | some m => if m = "" then j.error_message else m
             | none => j.error_message,
           finished_at := some now }

/-- update_job_progress (services.py): clamp to [0, 100] and persist. -/
def update_job_progress (p : Int) (j : Job) : Job :=
  { j with progress := max 0 (min p 100) }

/-- A raw coordinate entry inside a point of the label JSON: a number
(int or float) or any other JSON value. -/
inductive RawCoord
  | num (q : ℚ)
  | other
  deriving DecidableEq

/-- A raw point of a shape: a list/tuple of coordinate entries, or a
non-sequence JSON value. -/
inductive RawPoint
  | pt (coords : List RawCoord)
  | malformed
  deriving DecidableEq

/-- _normalize_shape_points (tasks.py): keep the points that are sequences
of length at least 2 whose first two entries are numbers. -/
def normalize_shape_points (points : Option (List RawPoint)) : List (ℚ × ℚ) :=
  (points.getD []).filterMap fun p =>
    match p with
    | RawPoint.pt (RawCoord.num x :: RawCoord.num y :: _) => some (x, y)
    | _ => none

structure Bbox where
  min_x : ℤ
  min_y : ℤ
  max_x : ℤ
  max_y : ℤ
  deriving DecidableEq

/-- The axis-aligned bounding box of the point list, clamped to the image
bounds: the corner computation of _compute_bbox (tasks.py) before its
minimum-size check. -/
def clamped_bbox (points : List (ℚ × ℚ)) (width height : ℤ) : Option Bbox :=
  match points with
  | [] => none
  | p :: rest =>
    let xs := p.1 :: rest.map Prod.fst
    let ys := p.2 :: rest.map Prod.snd
    some { min_x := max ⌊xs.foldl min p.1⌋ 0,
           min_y := max ⌊ys.foldl min p.2⌋ 0,
           max_x := min ⌈xs.foldl max p.1⌉ width,
           max_y := min ⌈ys.foldl max p.2⌉ height }

/-- _compute_bbox (tasks.py): the clamped box, rejected when its width or
height after clamping is below 2 pixels. -/
def compute_bbox (points : List (ℚ × ℚ)) (width height : ℤ) : Option Bbox :=
  match clamped_bbox points width height with
  | none => none
  | some b =>
    if b.max_x - b.min_x < 2 ∨ b.max_y - b.min_y < 2 then none else some b

/-- One shape dict of the label JSON, restricted to the field the
re-recognition pipeline reads; the remaining fields are passed through
untouched. -/
structure Shape where
  points : Option (List RawPoint)
  deriving DecidableEq

/-- One surviving (shape index, normalized points, bbox) triple of the
shape_entries list built in run_item_reocr_job (tasks.py). -/
structure ShapeEntry where
  idx : Nat
  pts : List (ℚ × ℚ)
  box : Bbox
  deriving DecidableEq

/-- The shape_entries loop of run_item_reocr_job (tasks.py): shapes with no
valid points or no valid bbox are skipped. -/
def shape_entries (shapes : List Shape) (width height : ℤ) : List ShapeEntry :=
  shapes.enum.filterMap fun ie =>
    let pts := normalize_shape_points ie.2.points
    if pts = [] then none
    else match compute_bbox pts width height with
      | none => none
      | some b => some { idx := ie.1, pts := pts, box := b }

/-- The (text, confidence) candidate extracted from one recognition result
(_extract_text_confidence output, tasks.py). -/
abbrev Candidate := Option String × Option ℚ

/-- The score fallback of _flush_batch (tasks.py): the confidence when it
is numeric, -1.0 otherwise. -/
def score_of (confidence : Option ℚ) : ℚ :=
  match confidence with
  | some c => c
  | none => -1

/-- One best_results update of _flush_batch (tasks.py) seen at a single
shape: the current best (text, score) pair is replaced only when the
candidate carries text and a strictly greater score. -/
def best_update (best : Option String × ℚ) (cand : Candidate) : Option String × ℚ :=
  let score := score_of cand.2
  match cand.1 with
  | some t => if score > best.2 then (some t, score) else best
  | none => best

/-- The best (text, score) pair kept for one shape after its candidates are
processed in rotation order, starting from the absent default (None, -1.0). -/
def best_over_rotations (cands : List Candidate) : Option String × ℚ :=
  cands.foldl best_update (none, -1)

/-- best_results.get(shape_index, (None, -1.0)) (tasks.py). -/
def dict_get (d : List (Nat × (Option String × ℚ))) (k : Nat) :
    Option String × ℚ :=
  match d.find? (fun p => p.1 == k) with
  | some p => p.2
  | none => (none, -1)

/-- best_results[shape_index] = value: Python dict assignment, insertion
order preserved. -/
def dict_set (d : List (Nat × (Option String × ℚ))) (k : Nat)
    (v : Option String × ℚ) : List (Nat × (Option String × ℚ)) :=
  if d.any (fun p => p.1 == k) then
    d.map fun p => if p.1 == k then (k, v) else p
  else d ++ [(k, v)]

/-- One zipped (meta, result) step of _flush_batch (tasks.py) applied to
the best_results dict. -/
def flush_step (best : List (Nat × (Option String × ℚ))) (shape_index : Nat)
    (cand : Candidate) : List (Nat × (Option String × ℚ)) :=
  let score := score_of cand.2
  let prev := dict_get best shape_index
  match cand.1 with
  | some t =>
    if score > prev.2 then dict_set best shape_index (some t, score) else best
  | none => best

/-- One behavior of recognizer.predict on a batch: the extracted candidate
per batch entry, or a raised exception message. -/
inductive EngineCall
  | ok (results : List Candidate)
  | err (message : String)

/-- State of the batching loop of run_item_reocr_job: pending batch
metadata, the best_results dict, the number and sizes of the engine calls
made so far, the current Job row, and the persisted Job snapshots. -/
structure PipeState where
  batch_meta : List (Nat × Nat)
  best : List (Nat × (Option String × ℚ))
  flush_idx : Nat
  flush_sizes : List Nat
  job : Job
  trace : List Job

/-- Result of one pipeline step: normal continuation, or an exception
carrying the state at the raise point. -/
inductive StepResult
  | ok (s : PipeState)
  | err (message : String) (s : PipeState)

/-- The state carried by a step result. -/
def StepResult.state : StepResult → PipeState
  | StepResult.ok s => s
  | StepResult.err _ s => s

/-- _flush_batch (tasks.py): no-op on an empty batch; otherwise one engine
call over the whole batch whose results are zipped with batch_meta into
best_results, after which the batch is cleared. -/
def flush_batch (engine : Nat → EngineCall) (s : PipeState) : StepResult :=
  if s.batch_meta = [] then StepResult.ok s
  else
    match engine s.flush_idx with
    | EngineCall.err m => StepResult.err m s
    | EngineCall.ok results =>
      let best := (s.batch_meta.zip results).foldl
        (fun b mr => flush_step b mr.1.1 mr.2) s.best
      StepResult.ok { s with
        best := best,
        batch_meta := [],
        flush_idx := s.flush_idx + 1,
        flush_sizes := s.flush_sizes ++ [s.batch_meta.length] }

def BATCH_LIMIT : Nat := 16

/-- Append one rotated variant's metadata to the batch and flush when the
batch reaches BATCH_LIMIT (tasks.py). -/
def append_variant (engine : Nat → EngineCall) (s : PipeState)
    (shape_index rotation_idx : Nat) : StepResult :=
  let s1 := { s with batch_meta := s.batch_meta ++ [(shape_index, rotation_idx)] }
  if BATCH_LIMIT ≤ s1.batch_meta.length then flush_batch engine s1
  else StepResult.ok s1

/-- The inner rotation loop of run_item_reocr_job over the rotation
indices of [0, 90, 180, 270]. -/
def rot_loop (engine : Nat → EngineCall) (shape_index : Nat) :
    List Nat → PipeState → StepResult
  | [], s => StepResult.ok s
  | r :: rs, s =>
    match append_variant engine s shape_index r with
    | StepResult.ok s1 => rot_loop engine shape_index rs s1
    | StepResult.err m s1 => StepResult.err m s1

/-- The progress value written after the p-th of n surviving shapes:
min(10 + int(p / n * 80), 90) (tasks.py). -/
def shape_progress (n p : Nat) : Nat :=
  min (10 + p * 80 / n) 90

/-- The outer shape loop of run_item_reocr_job: four rotated variants per
entry with batch flushes in between, then one progress write per shape. -/
def entries_loop (engine : Nat → EngineCall) (n : Nat) :
    List ShapeEntry → Nat → PipeState → StepResult
  | [], _, s => StepResult.ok s
  | e :: rest, processed, s =>
    match rot_loop engine e.idx [0, 1, 2, 3] s with
    | StepResult.err m s1 => StepResult.err m s1
    | StepResult.ok s1 =>
      let processed1 := processed + 1
      let j := update_job_progress (shape_progress n processed1) s1.job
      entries_loop engine n rest processed1
        { s1 with job := j, trace := s1.trace ++ [j] }

/-- Environment of one run_item_reocr_job execution: the behavior of the
external collaborators it calls. -/
structure ReocrEnv where
  workspace : Except String Unit
  item : Except String Unit
  shapes : List Shape
  recognizer : Except String Unit
  width : ℤ
  height : ℤ
  engine : Nat → EngineCall
  now : Nat

/-- Modelled from the spec: OCRService.get_text_recognition_engine — the
engine-handle acquisition called by run_item_reocr_job after the shape
list is loaded and checked and before the first progress write — is not
under src/ (src/backend/jobs/ocr_service.py does not define it; only the
call site is staged). The spec abstracts it as the lazily initialized
global singleton engine handle injected into the pipeline, its
construction amortized once per worker. The model therefore takes the
acquisition's outcome from the environment: the opaque handle (whose
batch predict calls the environment models separately), or the exception
the acquisition raises, which the outer handler treats like any other
failure. -/
def get_text_recognition_engine (env : ReocrEnv) : Except String Unit :=
  env.recognizer

structure ReocrPayload where
  recognized_boxes : Nat
  total_boxes : Nat
  deriving DecidableEq

/-- The observable outcome of run_item_reocr_job: every persisted Job
snapshot in order, the returned payload or the exception message that
propagates to the queue runtime, and the batch sizes of the engine calls. -/
structure ReocrResult where
  trace : List Job
  outcome : Except String ReocrPayload
  flush_sizes : List Nat

def no_shapes_message : String :=
  "此頁面尚未有可重新辨識的框。請先完成框校正再試一次。"

def no_valid_box_message : String :=
  "找不到有效的框可辨識，請確認標註資料。"

def page_not_found_tag : String := "找不到頁面: "

/-- The tail of run_item_reocr_job after the shape loop (tasks.py): the
final flush, the shape rewrite and recognized count, the save, the write of
progress 100 and the finished transition; an exception raised in the loop
or in the final flush reaches the outer handler, which marks the job
failed before re-raising. -/
def reocr_finish (engine : Nat → EngineCall) (now : Nat) (total : Nat) :
    StepResult → ReocrResult
  | StepResult.err m s1 =>
    { trace := s1.trace ++ [mark_failed now (some m) s1.job],
      outcome := Except.error m, flush_sizes := s1.flush_sizes }
  | StepResult.ok s1 =>
    match flush_batch engine s1 with
    | StepResult.err m s2 =>
      { trace := s2.trace ++ [mark_failed now (some m) s2.job],
        outcome := Except.error m, flush_sizes := s2.flush_sizes }
    | StepResult.ok s2 =>
      { trace := s2.trace ++
          [update_job_progress 100 s2.job,
           mark_finished now (update_job_progress 100 s2.job)],
        outcome := Except.ok
          { recognized_boxes := (s2.best.filter (fun p => p.2.1.isSome)).length,
            total_boxes := total },
        flush_sizes := s2.flush_sizes }

/-- run_item_reocr_job (tasks.py): box-level re-recognition of one page.
The failure paths reproduce the source's nesting: the inner handlers for
workspace and item lookups mark the job failed and re-raise, after which
the outer handler marks it failed again with the original message; the
engine-handle acquisition (see get_text_recognition_engine) sits between
the empty-shape-list check and the first progress write, and an exception
it raises is marked failed once by the outer handler. -/
def run_item_reocr_job (env : ReocrEnv) (j0 : Job) : ReocrResult :=
  let j1 := mark_running env.now j0
  match env.workspace with
  | Except.error m =>
    let jf := mark_failed env.now (some m) j1
    let jf2 := mark_failed env.now (some m) jf
    { trace := [j1, jf, jf2], outcome := Except.error m, flush_sizes := [] }
  | Except.ok _ =>
  match env.item with
  | Except.error m =>
    let jf := mark_failed env.now (some (page_not_found_tag ++ m)) j1
    let jf2 := mark_failed env.now (some m) jf
    { trace := [j1, jf, jf2], outcome := Except.error m, flush_sizes := [] }
  | Except.ok _ =>
  if env.shapes = [] then
    let jf := mark_failed env.now (some no_shapes_message) j1
    { trace := [j1, jf], outcome := Except.error no_shapes_message,
      flush_sizes := [] }
  else
  match get_text_recognition_engine env with
  | Except.error m =>
    let jf := mark_failed env.now (some m) j1
    { trace := [j1, jf], outcome := Except.error m, flush_sizes := [] }
  | Except.ok _ =>
    let j2 := update_job_progress 10 j1
    let entries := shape_entries env.shapes env.width env.height
    if entries = [] then
      let jf := mark_failed env.now (some no_valid_box_message) j2
      { trace := [j1, j2, jf], outcome := Except.error no_valid_box_message,
        flush_sizes := [] }
    else
      let s0 : PipeState :=
        { batch_meta := [], best := [], flush_idx := 0, flush_sizes := [],
          job := j2, trace := [j1, j2] }
      reocr_finish env.engine env.now entries.length
        (entries_loop env.engine entries.length entries 0 s0)

/-- Environment of one run_record_ocr_job execution: per page, the OCR
call either yields a detection count or raises with a message. -/
structure RecordEnv where
  workspace : Except String Unit
  items : List (Except String Nat)
  now : Nat

structure RecordPayload where
  pages : Nat
  total_detections : Nat
  deriving DecidableEq

structure RecState where
  count : Nat
  job : Job
  trace : List Job

inductive RecStepResult
  | ok (s : RecState)
  | err (message : String) (s : RecState)

/-- The per-page loop of run_record_ocr_job (tasks.py): after each page
the progress int(index / total * 100) is written. -/
def record_loop (total : Nat) :
    List (Except String Nat) → Nat → RecState → RecStepResult
  | [], _, s => RecStepResult.ok s
  | r :: rest, index, s =>
    match r with
    | Except.error m => RecStepResult.err m s
    | Except.ok c =>
      let index1 := index + 1
      let j := update_job_progress ((index1 * 100 / total : Nat) : Int) s.job
      record_loop total rest index1
        { count := s.count + c, job := j, trace := s.trace ++ [j] }

structure RecordResult where
  trace : List Job
  outcome : Except String RecordPayload

/-- The tail of run_record_ocr_job after the page loop: the finished
transition and payload on success, or the outer handler marking the job
failed before the exception re-raises. -/
def record_finish (now : Nat) (pages : Nat) : RecStepResult → RecordResult
  | RecStepResult.err m s =>
    { trace := s.trace ++ [mark_failed now (some m) s.job],
      outcome := Except.error m }
  | RecStepResult.ok s =>
    { trace := s.trace ++ [mark_finished now s.job],
      outcome := Except.ok { pages := pages, total_detections := s.count } }

/-- run_record_ocr_job (tasks.py): full-page OCR over every page of one
record; total is max(len(items), 1). -/
def run_record_ocr_job (env : RecordEnv) (j0 : Job) : RecordResult :=
  let j1 := mark_running env.now j0
  match env.workspace with
  | Except.error m =>
    let jf := mark_failed env.now (some m) j1
    let jf2 := mark_failed env.now (some m) jf
    { trace := [j1, jf, jf2], outcome := Except.error m }
  | Except.ok _ =>
    let total := max env.items.length 1
    record_finish env.now env.items.length
      (record_loop total env.items 0 { count := 0, job := j1, trace := [j1] })

/-- The rq statuses job_cancel inspects through fetch_job().get_status(). -/
inductive RqStatus
  | queued
  | deferred
  | started
  | finished
  | failed
  | canceled
  deriving DecidableEq

/-- Environment of one job_cancel call: the fetched rq entry's status, or
none when the queue has no entry for the stored id. -/
structure CancelEnv where
  fetched : Option RqStatus
  now : Nat

/-- job_cancel (views.py): terminal jobs are returned unchanged; otherwise
rq cancel is attempted only for a queued or deferred entry, and the job is
then unconditionally marked canceled with finished_at = now. The Bool
reports whether rq cancel was attempted. -/
def job_cancel (env : CancelEnv) (j : Job) : Job × Bool :=
  if j.status = Status.pending ∨ j.status = Status.running then
    let attempted :=
      if j.rq_job_id = "" then false
      else match env.fetched with
        | some RqStatus.queued => true
        | some RqStatus.deferred => true
        | _ => false
    ({ j with status := Status.canceled, finished_at := some env.now }, attempted)
  else (j, false)

def still_in_progress_message : String := "Job is still in progress."

/-- job_retry (views.py): allowed only from a terminal status; resets the
run state and stores the id of the freshly enqueued rq entry. -/
def job_retry (new_rq_id : String) (j : Job) : Except String Job :=
  if j.status = Status.failed ∨ j.status = Status.canceled ∨
      j.status = Status.finished then
    let j1 := { j with
                status := Status.pending,
                error_message := "",
                progress := 0,
                started_at := none,
                finished_at := none }
    Except.ok { j1 with rq_job_id := new_rq_id }
  else Except.error still_in_progress_message

/-- The state carried by a record-loop step result. -/
def RecStepResult.state : RecStepResult → RecState
  | RecStepResult.ok s => s
  | RecStepResult.err _ s => s

/-- The progress facts every persisted snapshot satisfies: progress in
[0, 100], and a finished snapshot always shows progress 100. -/
def snapshot_ok (j : Job) : Prop :=
  0 ≤ j.progress ∧ j.progress ≤ 100 ∧
    (j.status = Status.finished → j.progress = 100)

/-- The invariant of the batching loop: the current row is running with
progress in [0, 100] and every persisted snapshot is well formed. -/
def pipe_ok (s : PipeState) : Prop :=
  s.job.status = Status.running ∧ 0 ≤ s.job.progress ∧
    s.job.progress ≤ 100 ∧ ∀ j ∈ s.trace, snapshot_ok j

/-- The corresponding invariant of the record-task page loop. -/
def rec_ok (s : RecState) : Prop :=
  s.job.status = Status.running ∧ 0 ≤ s.job.progress ∧
    s.job.progress ≤ 100 ∧ ∀ j ∈ s.trace, snapshot_ok j

/- Concrete fixtures used by witnesses and counterexamples. -/

/-- A rectangle-like two-point shape with numeric coordinates. -/
def sample_shape (x0 y0 x1 y1 : ℚ) : Shape :=
  { points := some [RawPoint.pt [RawCoord.num x0, RawCoord.num y0],
                    RawPoint.pt [RawCoord.num x1, RawCoord.num y1]] }

/-- A freshly created pending job row. -/
def job0 : Job :=
  { id := "job-1", status := Status.pending, progress := 0, error_message := "",
    rq_job_id := "rq-1", started_at := none, finished_at := none }

/-- A happy-path environment with one surviving shape. -/
def env1 : ReocrEnv :=
  { workspace := Except.ok (), item := Except.ok (), recognizer := Except.ok (),
    shapes := [sample_shape 0 0 50 30],
    width := 100, height := 100,
    engine := fun _ => EngineCall.ok [], now := 5 }

/-- A happy-path environment with two surviving shapes. -/
def env2 : ReocrEnv :=
  { workspace := Except.ok (), item := Except.ok (), recognizer := Except.ok (),
    shapes := [sample_shape 0 0 50 30, sample_shape 10 10 60 40],
    width := 100, height := 100,
    engine := fun _ => EngineCall.ok [], now := 8 }

/-- A happy-path environment with nine surviving shapes (36 rotation
variants). -/
def env9 : ReocrEnv :=
  { workspace := Except.ok (), item := Except.ok (), recognizer := Except.ok (),
    shapes := List.replicate 9 (sample_shape 0 0 50 30),
    width := 100, height := 100,
    engine := fun _ => EngineCall.ok [], now := 5 }

/- Helper lemmas on the Job operations. -/

lemma update_job_progress_status (p : Int) (j : Job) :
    (update_job_progress p j).status = j.status := rfl

lemma update_job_progress_bounds (p : Int) (j : Job) :
    0 ≤ (update_job_progress p j).progress ∧
      (update_job_progress p j).progress ≤ 100 := by
  unfold update_job_progress
  exact ⟨by simp, by simp⟩

lemma update_job_progress_comp (p q : Int) (j : Job) :
    update_job_progress p (update_job_progress q j) = update_job_progress p j := rfl

lemma mark_running_status (now : Nat) (j : Job) :
    (mark_running now j).status = Status.running := by
  unfold mark_running
  by_cases h : j.status = Status.running <;> simp [h]

lemma mark_running_progress (now : Nat) (j : Job) :
    (mark_running now j).progress = j.progress := by
  unfold mark_running
  by_cases h : j.status = Status.running <;> simp [h]

lemma mark_failed_fields (now : Nat) (m : String) (j : Job) :
    (mark_failed now (some m) j).status = Status.failed ∧
      (mark_failed now (some m) j).finished_at = some now ∧
      (mark_failed now (some m) j).progress = j.progress ∧
      (m ≠ "" → (mark_failed now (some m) j).error_message = m) := by
  unfold mark_failed
  refine ⟨rfl, rfl, rfl, fun hm => ?_⟩
  simp [hm]

lemma mark_finished_fields (now : Nat) (j : Job) :
    (mark_finished now j).status = Status.finished ∧
      (mark_finished now j).progress = 100 ∧
      (mark_finished now j).finished_at = some now := ⟨rfl, rfl, rfl⟩


/-- C1: in box-level re-recognition, a candidate replaces a shape's current
best (text, score) pair only when it carries text and a strictly greater
score (so ties keep the earlier rotation), and on the rotation-ordered
candidates [(no text, 0.10), (T2, 0.95), (no text, 0.0), (T4, 0.95)] the
pair kept is (T2, 0.95), not T4. -/
theorem c1_rotation_best_pick :
    (∀ (best : Option String × ℚ) (cand : Candidate),
      best_update best cand ≠ best →
      ∃ t, cand.1 = some t ∧ best.2 < score_of cand.2) ∧
    best_over_rotations
      [(none, some (1/10)), (some "T2", some (19/20)), (none, some 0),
       (some "T4", some (19/20))] = (some "T2", 19/20) := by
  constructor
  · rintro ⟨bt, bs⟩ ⟨ct, cc⟩ h
    cases ct with
    | none => simp [best_update] at h
    | some t =>
      by_cases hlt : bs < score_of cc
      · exact ⟨t, rfl, hlt⟩
      · exact absurd (by simp [best_update, hlt]) h
  · norm_num [best_over_rotations, List.foldl, best_update, score_of]

/-- C1 witness: the replacement condition instantiated at the concrete
update of (None, -1.0) by the candidate ("X", 5), together with the
concrete rotation sequence of the claim. -/
theorem c1_rotation_best_pick_witness :
    (∃ t, (some "X" : Option String) = some t ∧
      ((none, -1) : Option String × ℚ).2 < score_of (some 5)) ∧
    best_over_rotations
      [(none, some (1/10)), (some "T2", some (19/20)), (none, some 0),
       (some "T4", some (19/20))] = (some "T2", 19/20) :=
  ⟨c1_rotation_best_pick.1 (none, -1) (some "X", some 5)
      (by norm_num [best_update, score_of]),
   c1_rotation_best_pick.2⟩

lemma compute_bbox_clamped (pts : List (ℚ × ℚ)) (w h : ℤ) (b : Bbox)
    (hc : clamped_bbox pts w h = some b) :
    compute_bbox pts w h =
      if b.max_x - b.min_x < 2 ∨ b.max_y - b.min_y < 2 then none else some b := by
  unfold compute_bbox
  rw [hc]

lemma compute_bbox_some_dims {pts : List (ℚ × ℚ)} {w h : ℤ} {b : Bbox}
    (hcb : compute_bbox pts w h = some b) :
    2 ≤ b.max_x - b.min_x ∧ 2 ≤ b.max_y - b.min_y := by
  cases hc : clamped_bbox pts w h with
  | none => simp [compute_bbox, hc] at hcb
  | some cb =>
    rw [compute_bbox_clamped pts w h cb hc] at hcb
    by_cases hsm : cb.max_x - cb.min_x < 2 ∨ cb.max_y - cb.min_y < 2
    · rw [if_pos hsm] at hcb; exact absurd hcb (by simp)
    · rw [if_neg hsm] at hcb
      push_neg at hsm
      cases hcb
      exact hsm

/-- C4: a shape whose clamped bounding box has width < 2 or height < 2 is
rejected by _compute_bbox, so it never enters the surviving shape_entries:
every surviving entry carries a box of width and height at least 2 (and the
skip path is a total function, never an error). -/
theorem c4_small_box_skipped :
    (∀ (pts : List (ℚ × ℚ)) (w h : ℤ) (b : Bbox),
      clamped_bbox pts w h = some b →
      b.max_x - b.min_x < 2 ∨ b.max_y - b.min_y < 2 →
      compute_bbox pts w h = none) ∧
    (∀ (shapes : List Shape) (w h : ℤ) (e : ShapeEntry),
      e ∈ shape_entries shapes w h →
      compute_bbox e.pts w h = some e.box ∧
      2 ≤ e.box.max_x - e.box.min_x ∧ 2 ≤ e.box.max_y - e.box.min_y) := by
  constructor
  · intro pts w h b hcl hsm
    rw [compute_bbox_clamped pts w h b hcl, if_pos hsm]
  · intro shapes w h e he
    unfold shape_entries at he
    obtain ⟨ie, _, hfa⟩ := List.mem_filterMap.mp he
    by_cases hp : normalize_shape_points ie.2.points = []
    · simp [hp] at hfa
    · simp only [if_neg hp] at hfa
      cases hcb : compute_bbox (normalize_shape_points ie.2.points) w h with
      | none => simp [hcb] at hfa
      | some b =>
        simp only [hcb] at hfa
        cases hfa
        exact ⟨hcb, compute_bbox_some_dims hcb⟩

/-- C4 witness: the one-pixel-wide box from the points (0,0)-(1,30) is
clamped to (0,0,1,30) and rejected, while the wide sample shape survives
into shape_entries with a large box. -/
theorem c4_small_box_skipped_witness :
    compute_bbox [((0:ℚ), (0:ℚ)), (1, 30)] 100 100 = none ∧
    compute_bbox [((0:ℚ), (0:ℚ)), (50, 30)] 100 100 =
      some { min_x := 0, min_y := 0, max_x := 50, max_y := 30 } ∧
    2 ≤ (50 : ℤ) - 0 := by
  refine ⟨?_, by decide, by decide⟩
  exact c4_small_box_skipped.1 [((0:ℚ), (0:ℚ)), (1, 30)] 100 100
    { min_x := 0, min_y := 0, max_x := 1, max_y := 30 } (by decide)
    (by decide)

/-- C5: job_cancel is a no-op returning the job unchanged when the status
is already terminal (finished, failed or canceled); for a pending or
running job it sets status canceled and finished_at to now, whatever the
queue lookup returned. -/
theorem c5_cancel :
    (∀ (env : CancelEnv) (j : Job),
      j.status = Status.finished ∨ j.status = Status.failed ∨
        j.status = Status.canceled →
      job_cancel env j = (j, false)) ∧
    (∀ (env : CancelEnv) (j : Job),
      j.status = Status.pending ∨ j.status = Status.running →
      (job_cancel env j).1 =
        { j with status := Status.canceled, finished_at := some env.now }) := by
  constructor
  · intro env j hterm
    have hna : ¬(j.status = Status.pending ∨ j.status = Status.running) := by
      rcases hterm with h | h | h <;> simp [h]
    simp [job_cancel, hna]
  · intro env j hact
    unfold job_cancel
    rw [if_pos hact]

/-- C5 witness: a finished job is returned unchanged; a running job with a
started rq entry is still marked canceled with finished_at stamped. -/
theorem c5_cancel_witness :
    job_cancel { fetched := some RqStatus.started, now := 7 }
        { job0 with status := Status.finished } =
      ({ job0 with status := Status.finished }, false) ∧
    (job_cancel { fetched := some RqStatus.started, now := 7 }
        { job0 with status := Status.running }).1 =
      { job0 with status := Status.canceled, finished_at := some 7 } :=
  ⟨c5_cancel.1 { fetched := some RqStatus.started, now := 7 }
      { job0 with status := Status.finished } (Or.inl rfl),
   c5_cancel.2 { fetched := some RqStatus.started, now := 7 }
      { job0 with status := Status.running } (Or.inr rfl)⟩

/-- C6: job_retry succeeds exactly from a terminal status (finished, failed
or canceled) and otherwise fails with the invalid-state message; success
resets status to pending, clears progress, error and the run timestamps,
stores the freshly enqueued rq id, and keeps every other field (including
the job id) unchanged. -/
theorem c6_retry :
    (∀ (rid : String) (j : Job),
      j.status = Status.failed ∨ j.status = Status.canceled ∨
        j.status = Status.finished →
      job_retry rid j = Except.ok
        { j with status := Status.pending, error_message := "", progress := 0,
                 started_at := none, finished_at := none, rq_job_id := rid }) ∧
    (∀ (rid : String) (j : Job),
      ¬(j.status = Status.failed ∨ j.status = Status.canceled ∨
        j.status = Status.finished) →
      job_retry rid j = Except.error still_in_progress_message) := by
  constructor
  · intro rid j hterm
    unfold job_retry
    rw [if_pos hterm]
  · intro rid j hterm
    unfold job_retry
    rw [if_neg hterm]

/-- C6 witness: retrying a failed job resets it and stores the new rq id;
retrying a running job fails with the invalid-state message. -/
theorem c6_retry_witness :
    job_retry "rq-2"
        { job0 with status := Status.failed, error_message := "boom",
                    progress := 40, started_at := some 1, finished_at := some 2 } =
      Except.ok { job0 with status := Status.pending, rq_job_id := "rq-2" } ∧
    job_retry "rq-2" { job0 with status := Status.running } =
      Except.error still_in_progress_message :=
  ⟨c6_retry.1 "rq-2"
      { job0 with status := Status.failed, error_message := "boom",
                  progress := 40, started_at := some 1, finished_at := some 2 }
      (Or.inl rfl),
   c6_retry.2 "rq-2" { job0 with status := Status.running } (by decide)⟩

lemma getLast?_snoc {α : Type} (l : List α) (a : α) :
    (l ++ [a]).getLast? = some a := by
  rw [List.getLast?_append_cons]
  rfl

/-- C10: a full-page OCR job over a record that resolves but has zero page
images finishes successfully: the payload records pages = 0 and
total_detections = 0, and the final snapshot is finished with progress
100. -/
theorem c10_empty_record_success :
    ∀ (env : RecordEnv) (j0 : Job),
      env.workspace = Except.ok () → env.items = [] →
      (run_record_ocr_job env j0).outcome =
        Except.ok { pages := 0, total_detections := 0 } ∧
      ∃ jf, (run_record_ocr_job env j0).trace.getLast? = some jf ∧
        jf.status = Status.finished ∧ jf.progress = 100 := by
  intro env j0 hw hi
  refine ⟨?_, mark_finished env.now (mark_running env.now j0), ?_, rfl, rfl⟩ <;>
    simp [run_record_ocr_job, record_finish, record_loop, hw, hi,
      List.getLast?]

/-- C10 witness: the concrete empty record environment. -/
theorem c10_empty_record_success_witness :
    (run_record_ocr_job
        { workspace := Except.ok (), items := [], now := 3 } job0).outcome =
      Except.ok { pages := 0, total_detections := 0 } ∧
    ∃ jf, (run_record_ocr_job
        { workspace := Except.ok (), items := [], now := 3 } job0).trace.getLast? =
      some jf ∧ jf.status = Status.finished ∧ jf.progress = 100 :=
  c10_empty_record_success
    { workspace := Except.ok (), items := [], now := 3 } job0 rfl rfl

/-- C8: with a resolvable workspace and item, the job never completes as a
silent no-op success when there is nothing to recognize: an empty shape
list fails immediately with the descriptive no-shapes message (raised
before the engine handle is acquired); a page whose shapes all fail point
normalization or bbox computation fails with the descriptive no-valid-box
message once the engine handle is acquired, and with the acquisition
exception's own message when that acquisition itself raises. -/
theorem c8_no_valid_shapes_fails :
    (∀ (env : ReocrEnv) (j0 : Job),
      env.workspace = Except.ok () → env.item = Except.ok () →
      env.shapes = [] →
      (run_item_reocr_job env j0).outcome = Except.error no_shapes_message ∧
      no_shapes_message ≠ "" ∧
      ∃ jf, (run_item_reocr_job env j0).trace.getLast? = some jf ∧
        jf.status = Status.failed ∧
        jf.error_message = no_shapes_message ∧
        jf.finished_at = some env.now) ∧
    (∀ (env : ReocrEnv) (j0 : Job),
      env.workspace = Except.ok () → env.item = Except.ok () →
      get_text_recognition_engine env = Except.ok () →
      env.shapes ≠ [] →
      shape_entries env.shapes env.width env.height = [] →
      (run_item_reocr_job env j0).outcome =
        Except.error no_valid_box_message ∧
      no_valid_box_message ≠ "" ∧
      ∃ jf, (run_item_reocr_job env j0).trace.getLast? = some jf ∧
        jf.status = Status.failed ∧
        jf.error_message = no_valid_box_message ∧
        jf.finished_at = some env.now) ∧
    (∀ (env : ReocrEnv) (j0 : Job) (m : String),
      env.workspace = Except.ok () → env.item = Except.ok () →
      get_text_recognition_engine env = Except.error m → m ≠ "" →
      env.shapes ≠ [] →
      (run_item_reocr_job env j0).outcome = Except.error m ∧
      ∃ jf, (run_item_reocr_job env j0).trace.getLast? = some jf ∧
        jf.status = Status.failed ∧ jf.error_message = m ∧
        jf.finished_at = some env.now) := by
  refine ⟨?_, ?_, ?_⟩
  · intro env j0 hw hi hs
    refine ⟨?_, by decide,
      mark_failed env.now (some no_shapes_message) (mark_running env.now j0),
      ?_, ?_, ?_, ?_⟩ <;>
      simp [run_item_reocr_job, hw, hi, hs, mark_failed, no_shapes_message,
        List.getLast?]
  · intro env j0 hw hi hr hs he
    refine ⟨?_, by decide,
      mark_failed env.now (some no_valid_box_message)
        (update_job_progress 10 (mark_running env.now j0)),
      ?_, ?_, ?_, ?_⟩ <;>
      simp [run_item_reocr_job, hw, hi, hr, hs, he, mark_failed,
        no_valid_box_message, List.getLast?]
  · intro env j0 m hw hi hr hm hs
    refine ⟨?_,
      mark_failed env.now (some m) (mark_running env.now j0),
      ?_, ?_, ?_, ?_⟩ <;>
      simp [run_item_reocr_job, hw, hi, hr, hs, mark_failed, hm,
        List.getLast?]

/-- C8 witness: a page with no shapes at all, and a page with one shape
whose single point list is malformed (no numeric pairs) under a
successfully acquired engine handle. -/
theorem c8_no_valid_shapes_fails_witness :
    ((run_item_reocr_job
        { workspace := Except.ok (), item := Except.ok (),
          recognizer := Except.ok (), shapes := [],
          width := 100, height := 100,
          engine := fun _ => EngineCall.ok [], now := 4 } job0).outcome =
      Except.error no_shapes_message ∧ no_shapes_message ≠ "" ∧
      ∃ jf, (run_item_reocr_job
        { workspace := Except.ok (), item := Except.ok (),
          recognizer := Except.ok (), shapes := [],
          width := 100, height := 100,
          engine := fun _ => EngineCall.ok [], now := 4 } job0).trace.getLast? =
        some jf ∧ jf.status = Status.failed ∧
        jf.error_message = no_shapes_message ∧ jf.finished_at = some 4) ∧
    ((run_item_reocr_job
        { workspace := Except.ok (), item := Except.ok (),
          recognizer := Except.ok (),
          shapes := [{ points := some [RawPoint.malformed] }],
          width := 100, height := 100,
          engine := fun _ => EngineCall.ok [], now := 4 } job0).outcome =
      Except.error no_valid_box_message ∧ no_valid_box_message ≠ "" ∧
      ∃ jf, (run_item_reocr_job
        { workspace := Except.ok (), item := Except.ok (),
          recognizer := Except.ok (),
          shapes := [{ points := some [RawPoint.malformed] }],
          width := 100, height := 100,
          engine := fun _ => EngineCall.ok [], now := 4 } job0).trace.getLast? =
        some jf ∧ jf.status = Status.failed ∧
        jf.error_message = no_valid_box_message ∧ jf.finished_at = some 4) :=
  ⟨c8_no_valid_shapes_fails.1
      { workspace := Except.ok (), item := Except.ok (),
        recognizer := Except.ok (), shapes := [],
        width := 100, height := 100,
        engine := fun _ => EngineCall.ok [], now := 4 } job0 rfl rfl rfl,
   c8_no_valid_shapes_fails.2.1
      { workspace := Except.ok (), item := Except.ok (),
        recognizer := Except.ok (),
        shapes := [{ points := some [RawPoint.malformed] }],
        width := 100, height := 100,
        engine := fun _ => EngineCall.ok [], now := 4 } job0 rfl rfl rfl
      (by decide) (by decide)⟩

lemma reocr_finish_error (engine : Nat → EngineCall) (now total : Nat)
    (r : StepResult) (m : String)
    (h : (reocr_finish engine now total r).outcome = Except.error m) :
    ∃ jf, (reocr_finish engine now total r).trace.getLast? = some jf ∧
      jf.status = Status.failed ∧ jf.finished_at = some now ∧
      (m ≠ "" → jf.error_message = m) := by
  cases r with
  | err m1 s1 =>
    simp only [reocr_finish] at h ⊢
    have hm : m1 = m := by simpa using h
    subst hm
    exact ⟨mark_failed now (some m1) s1.job, getLast?_snoc _ _,
      (mark_failed_fields now m1 s1.job).1,
      (mark_failed_fields now m1 s1.job).2.1,
      (mark_failed_fields now m1 s1.job).2.2.2⟩
  | ok s1 =>
    cases hf : flush_batch engine s1 with
    | ok s2 =>
      simp only [reocr_finish, hf] at h
      exact absurd h (by simp)
    | err m2 s2 =>
      simp only [reocr_finish, hf] at h ⊢
      have hm : m2 = m := by simpa using h
      subst hm
      exact ⟨mark_failed now (some m2) s2.job, getLast?_snoc _ _,
        (mark_failed_fields now m2 s2.job).1,
        (mark_failed_fields now m2 s2.job).2.1,
        (mark_failed_fields now m2 s2.job).2.2.2⟩

lemma record_finish_error (now pages : Nat) (r : RecStepResult) (m : String)
    (h : (record_finish now pages r).outcome = Except.error m) :
    ∃ jf, (record_finish now pages r).trace.getLast? = some jf ∧
      jf.status = Status.failed ∧ jf.finished_at = some now ∧
      (m ≠ "" → jf.error_message = m) := by
  cases r with
  | err m1 s =>
    simp only [record_finish] at h ⊢
    have hm : m1 = m := by simpa using h
    subst hm
    exact ⟨mark_failed now (some m1) s.job, getLast?_snoc _ _,
      (mark_failed_fields now m1 s.job).1,
      (mark_failed_fields now m1 s.job).2.1,
      (mark_failed_fields now m1 s.job).2.2.2⟩
  | ok s =>
    simp only [record_finish] at h
    exact absurd h (by simp)

/-- C7: whenever either pipeline task fails for any reason — reference
lookup, validation, the spec-modelled engine-handle acquisition raising
(the behavior of the staged source, where the acquired method is absent),
or an engine call raising — the final Job snapshot persisted before the
exception leaves the task function is failed, carries finished_at = now,
and (for a non-empty exception message) records that message as the
job's error. -/
theorem c7_failure_bookkeeping :
    (∀ (env : ReocrEnv) (j0 : Job) (m : String),
      (run_item_reocr_job env j0).outcome = Except.error m →
      ∃ jf, (run_item_reocr_job env j0).trace.getLast? = some jf ∧
        jf.status = Status.failed ∧ jf.finished_at = some env.now ∧
        (m ≠ "" → jf.error_message = m)) ∧
    (∀ (env : RecordEnv) (j0 : Job) (m : String),
      (run_record_ocr_job env j0).outcome = Except.error m →
      ∃ jf, (run_record_ocr_job env j0).trace.getLast? = some jf ∧
        jf.status = Status.failed ∧ jf.finished_at = some env.now ∧
        (m ≠ "" → jf.error_message = m)) := by
  constructor
  · intro env j0 m hout
    cases hw : env.workspace with
    | error mw =>
      simp only [run_item_reocr_job, hw] at hout ⊢
      have hm : mw = m := by simpa using hout
      subst hm
      refine ⟨mark_failed env.now (some mw)
        (mark_failed env.now (some mw) (mark_running env.now j0)), ?_, ?_, ?_, ?_⟩
      · simp [List.getLast?]
      · exact (mark_failed_fields _ _ _).1
      · exact (mark_failed_fields _ _ _).2.1
      · exact (mark_failed_fields _ _ _).2.2.2
    | ok u =>
      cases u
      cases hi : env.item with
      | error mi =>
        simp only [run_item_reocr_job, hw, hi] at hout ⊢
        have hm : mi = m := by simpa using hout
        subst hm
        refine ⟨mark_failed env.now (some mi)
          (mark_failed env.now (some (page_not_found_tag ++ mi))
            (mark_running env.now j0)), ?_, ?_, ?_, ?_⟩
        · simp [List.getLast?]
        · exact (mark_failed_fields _ _ _).1
        · exact (mark_failed_fields _ _ _).2.1
        · exact (mark_failed_fields _ _ _).2.2.2
      | ok u2 =>
        cases u2
        by_cases hs : env.shapes = []
        · simp only [run_item_reocr_job, hw, hi, if_pos hs] at hout ⊢
          have hm : no_shapes_message = m := by simpa using hout
          subst hm
          refine ⟨mark_failed env.now (some no_shapes_message)
            (mark_running env.now j0), ?_, ?_, ?_, ?_⟩
          · simp [List.getLast?]
          · exact (mark_failed_fields _ _ _).1
          · exact (mark_failed_fields _ _ _).2.1
          · exact (mark_failed_fields _ _ _).2.2.2
        · cases hrec : get_text_recognition_engine env with
          | error me =>
            simp only [run_item_reocr_job, hw, hi, if_neg hs, hrec] at hout ⊢
            have hm : me = m := by simpa using hout
            subst hm
            refine ⟨mark_failed env.now (some me) (mark_running env.now j0),
              ?_, ?_, ?_, ?_⟩
            · simp [List.getLast?]
            · exact (mark_failed_fields _ _ _).1
            · exact (mark_failed_fields _ _ _).2.1
            · exact (mark_failed_fields _ _ _).2.2.2
          | ok u3 =>
            cases u3
            by_cases he : shape_entries env.shapes env.width env.height = []
            · simp only [run_item_reocr_job, hw, hi, if_neg hs, hrec,
                if_pos he] at hout ⊢
              have hm : no_valid_box_message = m := by simpa using hout
              subst hm
              refine ⟨mark_failed env.now (some no_valid_box_message)
                (update_job_progress 10 (mark_running env.now j0)),
                ?_, ?_, ?_, ?_⟩
              · simp [List.getLast?]
              · exact (mark_failed_fields _ _ _).1
              · exact (mark_failed_fields _ _ _).2.1
              · exact (mark_failed_fields _ _ _).2.2.2
            · simp only [run_item_reocr_job, hw, hi, if_neg hs, hrec,
                if_neg he] at hout ⊢
              exact reocr_finish_error _ _ _ _ _ hout
  · intro env j0 m hout
    cases hw : env.workspace with
    | error mw =>
      simp only [run_record_ocr_job, hw] at hout ⊢
      have hm : mw = m := by simpa using hout
      subst hm
      refine ⟨mark_failed env.now (some mw)
        (mark_failed env.now (some mw) (mark_running env.now j0)), ?_, ?_, ?_, ?_⟩
      · simp [List.getLast?]
      · exact (mark_failed_fields _ _ _).1
      · exact (mark_failed_fields _ _ _).2.1
      · exact (mark_failed_fields _ _ _).2.2.2
    | ok u =>
      cases u
      simp only [run_record_ocr_job, hw] at hout ⊢
      exact record_finish_error _ _ _ _ hout

/-- C7 witness: a workspace lookup failure on the box-level task and an OCR
failure on the first page of the record task. -/
theorem c7_failure_bookkeeping_witness :
    (∃ jf, (run_item_reocr_job
        { workspace := Except.error "no workspace", item := Except.ok (), recognizer := Except.ok (),
          shapes := [], width := 10, height := 10,
          engine := fun _ => EngineCall.ok [], now := 6 } job0).trace.getLast? =
      some jf ∧ jf.status = Status.failed ∧ jf.finished_at = some 6 ∧
      ("no workspace" ≠ "" → jf.error_message = "no workspace")) ∧
    (∃ jf, (run_record_ocr_job
        { workspace := Except.ok (), items := [Except.error "ocr broke"],
          now := 6 } job0).trace.getLast? =
      some jf ∧ jf.status = Status.failed ∧ jf.finished_at = some 6 ∧
      ("ocr broke" ≠ "" → jf.error_message = "ocr broke")) :=
  ⟨c7_failure_bookkeeping.1
      { workspace := Except.error "no workspace", item := Except.ok (), recognizer := Except.ok (),
        shapes := [], width := 10, height := 10,
        engine := fun _ => EngineCall.ok [], now := 6 } job0 "no workspace" rfl,
   c7_failure_bookkeeping.2
      { workspace := Except.ok (), items := [Except.error "ocr broke"],
        now := 6 } job0 "ocr broke" rfl⟩

/- Lemmas on the batching loop. -/

lemma append_variant_small (engine : Nat → EngineCall) (s : PipeState)
    (si ri : Nat) (h : s.batch_meta.length + 1 < 16) :
    append_variant engine s si ri =
      StepResult.ok { s with batch_meta := s.batch_meta ++ [(si, ri)] } := by
  unfold append_variant
  rw [if_neg]
  simp only [BATCH_LIMIT, List.length_append, List.length_cons,
    List.length_nil]
  omega

lemma append_variant_full (engine : Nat → EngineCall) (s : PipeState)
    (si ri : Nat) (rs : List Candidate) (h : s.batch_meta.length + 1 = 16)
    (he : engine s.flush_idx = EngineCall.ok rs) :
    append_variant engine s si ri =
      StepResult.ok { s with
        best := ((s.batch_meta ++ [(si, ri)]).zip rs).foldl
          (fun b mr => flush_step b mr.1.1 mr.2) s.best,
        batch_meta := [],
        flush_idx := s.flush_idx + 1,
        flush_sizes := s.flush_sizes ++ [16] } := by
  unfold append_variant
  rw [if_pos (by simp only [BATCH_LIMIT, List.length_append,
    List.length_cons, List.length_nil]; omega)]
  unfold flush_batch
  rw [if_neg (by simp)]
  simp only [he]
  simp [List.length_append, h]

lemma rot_loop_cons_ok (engine : Nat → EngineCall) (si r : Nat)
    (rs : List Nat) (s s1 : PipeState)
    (h : append_variant engine s si r = StepResult.ok s1) :
    rot_loop engine si (r :: rs) s = rot_loop engine si rs s1 := by
  simp [rot_loop, h]

lemma rot_loop_append (engine : Nat → EngineCall) (si : Nat) :
    ∀ (xs ys : List Nat) (s s1 : PipeState),
      rot_loop engine si xs s = StepResult.ok s1 →
      rot_loop engine si (xs ++ ys) s = rot_loop engine si ys s1 := by
  intro xs
  induction xs with
  | nil =>
    intro ys s s1 h
    simp only [rot_loop] at h
    cases h
    rfl
  | cons x xs ih =>
    intro ys s s1 h
    cases ha : append_variant engine s si x with
    | ok s2 =>
      rw [rot_loop_cons_ok engine si x xs s s2 ha] at h
      rw [List.cons_append, rot_loop_cons_ok engine si x (xs ++ ys) s s2 ha]
      exact ih ys s2 s1 h
    | err m s2 =>
      rw [show rot_loop engine si (x :: xs) s = StepResult.err m s2 by
        simp [rot_loop, ha]] at h
      exact StepResult.noConfusion h

lemma rot_loop_no_flush (engine : Nat → EngineCall) (si : Nat) :
    ∀ (rs : List Nat) (s : PipeState),
      s.batch_meta.length + rs.length ≤ 15 →
      ∃ s', rot_loop engine si rs s = StepResult.ok s' ∧
        s'.batch_meta.length = s.batch_meta.length + rs.length ∧
        s'.best = s.best ∧ s'.flush_idx = s.flush_idx ∧
        s'.flush_sizes = s.flush_sizes ∧ s'.job = s.job ∧
        s'.trace = s.trace := by
  intro rs
  induction rs with
  | nil =>
    intro s h
    exact ⟨s, rfl, by simp, rfl, rfl, rfl, rfl, rfl⟩
  | cons r rest ih =>
    intro s h
    simp only [List.length_cons] at h
    have hsmall : s.batch_meta.length + 1 < 16 := by omega
    obtain ⟨s', hrot, hlen, hbest, hfi, hfs, hj, ht⟩ :=
      ih { s with batch_meta := s.batch_meta ++ [(si, r)] }
        (by simp; omega)
    refine ⟨s', ?_, ?_, hbest, hfi, hfs, hj, ht⟩
    · rw [rot_loop_cons_ok engine si r rest s _
        (append_variant_small engine s si r hsmall)]
      exact hrot
    · simp at hlen ⊢
      omega

lemma rot_loop_spec (engine : Nat → EngineCall)
    (hok : ∀ i, ∃ rs, engine i = EngineCall.ok rs) (si : Nat) (s : PipeState)
    (h4 : s.batch_meta.length % 4 = 0) (hlt : s.batch_meta.length < 16) :
    ∃ s', rot_loop engine si [0, 1, 2, 3] s = StepResult.ok s' ∧
      s'.job = s.job ∧ s'.trace = s.trace ∧
      s'.batch_meta.length = (s.batch_meta.length + 4) % 16 ∧
      s'.flush_sizes = s.flush_sizes ++
        (if s.batch_meta.length = 12 then [16] else []) := by
  by_cases h12 : s.batch_meta.length = 12
  · obtain ⟨s1, hrot1, hlen1, hbest1, hfi1, hfs1, hj1, ht1⟩ :=
      rot_loop_no_flush engine si [0, 1, 2] s (by simp; omega)
    obtain ⟨rs, hrs⟩ := hok s1.flush_idx
    have hfull := append_variant_full engine s1 si 3 rs
      (by simp at hlen1; omega) hrs
    refine ⟨{ batch_meta := [],
              best := ((s1.batch_meta ++ [(si, 3)]).zip rs).foldl
                (fun b (mr : (Nat × Nat) × Candidate) =>
                  flush_step b mr.1.1 mr.2) s1.best,
              flush_idx := s1.flush_idx + 1,
              flush_sizes := s1.flush_sizes ++ [16],
              job := s1.job, trace := s1.trace }, ?_, ?_, ?_, ?_, ?_⟩
    · rw [show ([0, 1, 2, 3] : List Nat) = [0, 1, 2] ++ [3] from rfl,
        rot_loop_append engine si [0, 1, 2] [3] s s1 hrot1,
        rot_loop_cons_ok engine si 3 [] s1 _ hfull]
      rfl
    · exact hj1
    · exact ht1
    · simp [h12]
    · simp [hfs1, h12]
  · obtain ⟨s', hrot, hlen, hbest, hfi, hfs, hj, ht⟩ :=
      rot_loop_no_flush engine si [0, 1, 2, 3] s (by simp; omega)
    refine ⟨s', hrot, hj, ht, ?_, ?_⟩
    · simp at hlen
      omega
    · simp [hfs, h12]

lemma entries_loop_cons_ok (engine : Nat → EngineCall) (n : Nat)
    (e : ShapeEntry) (rest : List ShapeEntry) (k : Nat) (s s1 : PipeState)
    (h : rot_loop engine e.idx [0, 1, 2, 3] s = StepResult.ok s1) :
    entries_loop engine n (e :: rest) k s =
      entries_loop engine n rest (k + 1)
        { s1 with
            job := update_job_progress (shape_progress n (k + 1)) s1.job,
            trace := s1.trace ++
              [update_job_progress (shape_progress n (k + 1)) s1.job] } := by
  simp [entries_loop, h]

lemma entries_loop_spec (engine : Nat → EngineCall)
    (hok : ∀ i, ∃ rs, engine i = EngineCall.ok rs) (n : Nat) :
    ∀ (rest : List ShapeEntry) (k : Nat) (s : PipeState) (B : Job) (q : Int),
      s.batch_meta.length = 4 * k % 16 →
      s.job = update_job_progress q B →
      ∃ s', entries_loop engine n rest k s = StepResult.ok s' ∧
        s'.trace = s.trace ++
          (List.range' (k + 1) rest.length).map
            (fun p => update_job_progress (shape_progress n p) B) ∧
        s'.job = (if rest = [] then s.job
          else update_job_progress (shape_progress n (k + rest.length)) B) ∧
        s'.batch_meta.length = 4 * (k + rest.length) % 16 ∧
        s'.flush_sizes = s.flush_sizes ++
          List.replicate (4 * (k + rest.length) / 16 - 4 * k / 16) 16 := by
  intro rest
  induction rest with
  | nil =>
    intro k s B q h1 h2
    refine ⟨s, rfl, by simp, by simp, by simpa using h1, by simp⟩
  | cons e rest ih =>
    intro k s B q h1 h2
    obtain ⟨s1, hrot, hj1, ht1, hl1, hf1⟩ :=
      rot_loop_spec engine hok e.idx s (by omega) (by omega)
    have hcons := entries_loop_cons_ok engine n e rest k s s1 hrot
    obtain ⟨s', hloop, ht', hjob', hl', hf'⟩ :=
      ih (k + 1)
        { s1 with
            job := update_job_progress (shape_progress n (k + 1)) s1.job,
            trace := s1.trace ++
              [update_job_progress (shape_progress n (k + 1)) s1.job] }
        B (shape_progress n (k + 1))
        (by simp [hl1]; omega)
        (by simp [hj1, h2, update_job_progress_comp])
    dsimp only at ht' hjob' hl' hf'
    have hj1' : update_job_progress (shape_progress n (k + 1)) s1.job =
        update_job_progress (shape_progress n (k + 1)) B := by
      rw [hj1, h2, update_job_progress_comp]
    refine ⟨s', ?_, ?_, ?_, ?_, ?_⟩
    · rw [hcons]; exact hloop
    · rw [ht']
      simp [ht1, hj1', List.range'_succ]
    · rw [if_neg (by simp : (e :: rest) ≠ [])]
      rcases eq_or_ne rest [] with hr | hr
      · subst hr
        simp only [if_pos rfl] at hjob'
        rw [hjob', hj1']
        simp
      · rw [if_neg hr] at hjob'
        rw [hjob']
        have harith : k + 1 + rest.length = k + (rest.length + 1) := by omega
        simp [harith]
    · simp only [List.length_cons]
      omega
    · rw [hf', hf1]
      simp only [List.length_cons]
      by_cases h12 : s.batch_meta.length = 12
      · rw [if_pos h12]
        have e2 : 4 * (k + (rest.length + 1)) / 16 - 4 * k / 16 =
            (4 * (k + 1 + rest.length) / 16 - 4 * (k + 1) / 16) + 1 := by
          omega
        rw [e2]
        simp [List.replicate_succ]
      · rw [if_neg h12]
        have e2 : 4 * (k + 1 + rest.length) / 16 - 4 * (k + 1) / 16 =
            4 * (k + (rest.length + 1)) / 16 - 4 * k / 16 := by
          omega
        rw [e2]
        simp

lemma flush_batch_ok_spec (engine : Nat → EngineCall) (s : PipeState)
    (hok : ∀ i, ∃ rs, engine i = EngineCall.ok rs) :
    ∃ s2, flush_batch engine s = StepResult.ok s2 ∧ s2.job = s.job ∧
      s2.trace = s.trace ∧
      s2.flush_sizes = s.flush_sizes ++
        (if s.batch_meta = [] then [] else [s.batch_meta.length]) := by
  by_cases hm : s.batch_meta = []
  · exact ⟨s, by simp [flush_batch, hm], rfl, rfl, by simp [hm]⟩
  · obtain ⟨rs, hrs⟩ := hok s.flush_idx
    refine ⟨{ s with
              best := (s.batch_meta.zip rs).foldl
                (fun b mr => flush_step b mr.1.1 mr.2) s.best,
              batch_meta := [],
              flush_idx := s.flush_idx + 1,
              flush_sizes := s.flush_sizes ++ [s.batch_meta.length] },
      ?_, rfl, rfl, by simp [hm]⟩
    unfold flush_batch
    rw [if_neg hm]
    simp only [hrs]

/-- The full happy path of the box-level pipeline, characterizing the
engine call sizes and the persisted snapshot trace. -/
lemma reocr_pipeline_spec (env : ReocrEnv) (j0 : Job)
    (hw : env.workspace = Except.ok ()) (hi : env.item = Except.ok ())
    (hr : get_text_recognition_engine env = Except.ok ())
    (hok : ∀ i, ∃ rs, env.engine i = EngineCall.ok rs)
    (hs : env.shapes ≠ [])
    (he : shape_entries env.shapes env.width env.height ≠ []) :
    (run_item_reocr_job env j0).flush_sizes =
      List.replicate
        (4 * (shape_entries env.shapes env.width env.height).length / 16) 16 ++
      (if 4 * (shape_entries env.shapes env.width env.height).length % 16 = 0
       then []
       else [4 * (shape_entries env.shapes env.width env.height).length % 16]) ∧
    (run_item_reocr_job env j0).trace =
      [mark_running env.now j0,
       update_job_progress 10 (mark_running env.now j0)] ++
      (List.range' 1 (shape_entries env.shapes env.width env.height).length).map
        (fun p => update_job_progress
          (shape_progress (shape_entries env.shapes env.width env.height).length p)
          (mark_running env.now j0)) ++
      [update_job_progress 100 (mark_running env.now j0),
       mark_finished env.now (update_job_progress 100 (mark_running env.now j0))] := by
  obtain ⟨s', hloop, ht', hjob', hl', hf'⟩ :=
    entries_loop_spec env.engine hok
      (shape_entries env.shapes env.width env.height).length
      (shape_entries env.shapes env.width env.height) 0
      { batch_meta := [], best := [], flush_idx := 0, flush_sizes := [],
        job := update_job_progress 10 (mark_running env.now j0),
        trace := [mark_running env.now j0,
                  update_job_progress 10 (mark_running env.now j0)] }
      (mark_running env.now j0) 10 (by simp) rfl
  dsimp only at ht' hjob' hl' hf'
  obtain ⟨s2, hflush, hj2, ht2, hfs2⟩ := flush_batch_ok_spec env.engine s' hok
  have hrun : run_item_reocr_job env j0 =
      reocr_finish env.engine env.now
        (shape_entries env.shapes env.width env.height).length
        (entries_loop env.engine
          (shape_entries env.shapes env.width env.height).length
          (shape_entries env.shapes env.width env.height) 0
          { batch_meta := [], best := [], flush_idx := 0, flush_sizes := [],
            job := update_job_progress 10 (mark_running env.now j0),
            trace := [mark_running env.now j0,
                      update_job_progress 10 (mark_running env.now j0)] }) := by
    simp [run_item_reocr_job, hw, hi, hr, hs, he]
  rw [hrun, hloop]
  simp only [reocr_finish, hflush]
  have hmeta : s'.batch_meta = [] ↔
      4 * (shape_entries env.shapes env.width env.height).length % 16 = 0 := by
    rw [← List.length_eq_zero, hl']
    omega
  constructor
  · rw [hfs2, hf', hl']
    simp only [Nat.zero_add, Nat.zero_mul, Nat.div_zero, Nat.sub_zero]
    by_cases hz :
        4 * (shape_entries env.shapes env.width env.height).length % 16 = 0
    · rw [if_pos (hmeta.mpr hz), if_pos hz]
      simp
    · rw [if_neg (fun c => hz (hmeta.mp c)), if_neg hz]
      simp [hl']
  · rw [ht2, ht']
    have hjob2 : s'.job = update_job_progress
        (shape_progress (shape_entries env.shapes env.width env.height).length
          (shape_entries env.shapes env.width env.height).length)
        (mark_running env.now j0) := by
      rw [hjob', if_neg he]
      simp
    rw [hj2, hjob2, update_job_progress_comp]

/-- C2: once the spec-modelled engine handle is acquired, the batch is
flushed exactly each time it reaches 16 queued variants and once more at
the end for any non-empty remainder, so with 9 surviving shapes (36
variants) exactly 3 engine calls occur, of sizes 16, 16 and 4, in that
order. -/
theorem c2_batch_flush :
    ∀ (env : ReocrEnv) (j0 : Job),
      env.workspace = Except.ok () → env.item = Except.ok () →
      get_text_recognition_engine env = Except.ok () →
      (∀ i, ∃ rs, env.engine i = EngineCall.ok rs) →
      env.shapes ≠ [] →
      shape_entries env.shapes env.width env.height ≠ [] →
      (run_item_reocr_job env j0).flush_sizes =
        List.replicate
          (4 * (shape_entries env.shapes env.width env.height).length / 16) 16 ++
        (if 4 * (shape_entries env.shapes env.width env.height).length % 16 = 0
         then []
         else [4 * (shape_entries env.shapes env.width env.height).length % 16]) ∧
      ((shape_entries env.shapes env.width env.height).length = 9 →
        (run_item_reocr_job env j0).flush_sizes = [16, 16, 4]) := by
  intro env j0 hw hi hr hok hs he
  have h := (reocr_pipeline_spec env j0 hw hi hr hok hs he).1
  refine ⟨h, fun h9 => ?_⟩
  rw [h, h9]
  decide

/-- C2 witness: the nine-shape environment produces engine calls of sizes
16, 16 and 4. -/
theorem c2_batch_flush_witness :
    (run_item_reocr_job env9 job0).flush_sizes = [16, 16, 4] :=
  (c2_batch_flush env9 job0 rfl rfl rfl (fun _ => ⟨[], rfl⟩) (by decide)
    (by decide)).2 (by decide)

/-- C9 (amended): once the spec-modelled engine handle is acquired, the
persisted progress sequence is: exactly 10 before shape processing
starts; after the p-th of n shapes the value min(10 + p * 80 / n, 90), so
capped at 90; then, after the save, progress 100 is written while the job
is still running; and only then the finished transition runs
(re-asserting progress 100). -/
theorem c9_progress_schedule :
    ∀ (env : ReocrEnv) (j0 : Job),
      env.workspace = Except.ok () → env.item = Except.ok () →
      get_text_recognition_engine env = Except.ok () →
      (∀ i, ∃ rs, env.engine i = EngineCall.ok rs) →
      env.shapes ≠ [] →
      shape_entries env.shapes env.width env.height ≠ [] →
      (run_item_reocr_job env j0).trace =
        [mark_running env.now j0,
         update_job_progress 10 (mark_running env.now j0)] ++
        (List.range' 1 (shape_entries env.shapes env.width env.height).length).map
          (fun p => update_job_progress
            (shape_progress (shape_entries env.shapes env.width env.height).length p)
            (mark_running env.now j0)) ++
        [update_job_progress 100 (mark_running env.now j0),
         mark_finished env.now
           (update_job_progress 100 (mark_running env.now j0))] ∧
      (update_job_progress 10 (mark_running env.now j0)).progress = 10 ∧
      (∀ n p : Nat, shape_progress n p ≤ 90) ∧
      (∀ p : Nat, (update_job_progress
          (shape_progress (shape_entries env.shapes env.width env.height).length p)
          (mark_running env.now j0)).progress =
        (shape_progress (shape_entries env.shapes env.width env.height).length p
          : Int)) ∧
      (update_job_progress 100 (mark_running env.now j0)).progress = 100 ∧
      (update_job_progress 100 (mark_running env.now j0)).status =
        Status.running ∧
      (mark_finished env.now
        (update_job_progress 100 (mark_running env.now j0))).status =
        Status.finished := by
  intro env j0 hw hi hr hok hs he
  refine ⟨(reocr_pipeline_spec env j0 hw hi hr hok hs he).2, ?_, ?_, ?_, ?_, ?_,
    rfl⟩
  · norm_num [update_job_progress]
  · intro n p
    exact min_le_right _ _
  · intro p
    have h1 : shape_progress
        (shape_entries env.shapes env.width env.height).length p ≤ 90 :=
      min_le_right _ _
    simp only [update_job_progress]
    omega
  · norm_num [update_job_progress]
  · rw [update_job_progress_status]
    exact mark_running_status _ _

/-- C9 witness: the one-shape environment, whose full snapshot sequence is
10, then 90 for its single shape, then 100 while running, then finished. -/
theorem c9_progress_schedule_witness :
    (run_item_reocr_job env1 job0).trace =
      [mark_running 5 job0,
       update_job_progress 10 (mark_running 5 job0),
       update_job_progress 90 (mark_running 5 job0),
       update_job_progress 100 (mark_running 5 job0),
       mark_finished 5 (update_job_progress 100 (mark_running 5 job0))] := by
  have h := (c9_progress_schedule env1 job0 rfl rfl rfl (fun _ => ⟨[], rfl⟩)
    (by decide) (by decide)).1
  rw [h]
  decide

/-- C9 counterexample to the original claim: with two surviving shapes
(and the spec-modelled engine handle acquired) the snapshot at index 4
already shows progress 100 while the status is still running, and the
finished transition is only the later snapshot at index 5 — so the final
update to 100 is not applied after the terminal transition, but before
it. -/
theorem c9_final_update_order_counterexample :
    ((run_item_reocr_job env2 job0).trace.get? 4).map
        (fun j => (j.progress, j.status)) = some (100, Status.running) ∧
    ((run_item_reocr_job env2 job0).trace.get? 5).map
        (fun j => j.status) = some Status.finished := by
  decide

/- Snapshot invariant lemmas. -/

lemma snapshot_ok_mark_running (now : Nat) (j : Job)
    (h0 : 0 ≤ j.progress) (h1 : j.progress ≤ 100) :
    snapshot_ok (mark_running now j) := by
  refine ⟨?_, ?_, ?_⟩
  · rw [mark_running_progress]; exact h0
  · rw [mark_running_progress]; exact h1
  · intro hfin
    rw [mark_running_status] at hfin
    exact absurd hfin (by decide)

lemma snapshot_ok_mark_failed (now : Nat) (m : Option String) (j : Job)
    (h0 : 0 ≤ j.progress) (h1 : j.progress ≤ 100) :
    snapshot_ok (mark_failed now m j) := by
  refine ⟨h0, h1, ?_⟩
  intro hfin
  exact absurd hfin (by simp [mark_failed])

lemma snapshot_ok_update (p : Int) (j : Job)
    (hst : j.status ≠ Status.finished) :
    snapshot_ok (update_job_progress p j) := by
  refine ⟨(update_job_progress_bounds p j).1,
    (update_job_progress_bounds p j).2, ?_⟩
  intro hfin
  rw [update_job_progress_status] at hfin
  exact absurd hfin hst

lemma snapshot_ok_mark_finished (now : Nat) (j : Job) :
    snapshot_ok (mark_finished now j) :=
  ⟨by simp [mark_finished], by simp [mark_finished], fun _ => rfl⟩

lemma flush_batch_state (engine : Nat → EngineCall) (s : PipeState) :
    (flush_batch engine s).state.job = s.job ∧
    (flush_batch engine s).state.trace = s.trace := by
  unfold flush_batch
  by_cases hm : s.batch_meta = []
  · simp [hm, StepResult.state]
  · cases he : engine s.flush_idx <;> simp [hm, he, StepResult.state]

lemma append_variant_state (engine : Nat → EngineCall) (s : PipeState)
    (si ri : Nat) :
    (append_variant engine s si ri).state.job = s.job ∧
    (append_variant engine s si ri).state.trace = s.trace := by
  unfold append_variant
  dsimp only
  by_cases hc : BATCH_LIMIT ≤ (s.batch_meta ++ [(si, ri)]).length
  · rw [if_pos hc]
    exact flush_batch_state engine _
  · rw [if_neg hc]
    exact ⟨rfl, rfl⟩

lemma rot_loop_state (engine : Nat → EngineCall) (si : Nat) :
    ∀ (rs : List Nat) (s : PipeState),
      (rot_loop engine si rs s).state.job = s.job ∧
      (rot_loop engine si rs s).state.trace = s.trace := by
  intro rs
  induction rs with
  | nil => intro s; exact ⟨rfl, rfl⟩
  | cons r rest ih =>
    intro s
    cases ha : append_variant engine s si r with
    | ok s1 =>
      have hst := append_variant_state engine s si r
      rw [ha] at hst
      simp only [StepResult.state] at hst
      rw [rot_loop_cons_ok engine si r rest s s1 ha]
      exact ⟨(ih s1).1.trans hst.1, (ih s1).2.trans hst.2⟩
    | err m s1 =>
      have hst := append_variant_state engine s si r
      rw [ha] at hst
      simp only [StepResult.state] at hst
      rw [show rot_loop engine si (r :: rest) s = StepResult.err m s1 by
        simp [rot_loop, ha]]
      exact hst

lemma entries_loop_state_ok (engine : Nat → EngineCall) (n : Nat) :
    ∀ (rest : List ShapeEntry) (k : Nat) (s : PipeState),
      pipe_ok s → pipe_ok ((entries_loop engine n rest k s).state) := by
  intro rest
  induction rest with
  | nil => intro k s h; exact h
  | cons e rest ih =>
    intro k s h
    cases hr : rot_loop engine e.idx [0, 1, 2, 3] s with
    | err m s1 =>
      have hst := rot_loop_state engine e.idx [0, 1, 2, 3] s
      rw [hr] at hst
      simp only [StepResult.state] at hst
      rw [show entries_loop engine n (e :: rest) k s = StepResult.err m s1 by
        simp [entries_loop, hr]]
      simp only [StepResult.state]
      unfold pipe_ok at h ⊢
      rw [hst.1, hst.2]
      exact h
    | ok s1 =>
      have hst := rot_loop_state engine e.idx [0, 1, 2, 3] s
      rw [hr] at hst
      simp only [StepResult.state] at hst
      rw [entries_loop_cons_ok engine n e rest k s s1 hr]
      apply ih
      unfold pipe_ok at h ⊢
      refine ⟨?_, ?_, ?_, ?_⟩
      · rw [update_job_progress_status, hst.1]
        exact h.1
      · exact (update_job_progress_bounds _ _).1
      · exact (update_job_progress_bounds _ _).2
      · intro j hj
        simp only [List.mem_append, List.mem_singleton] at hj
        rcases hj with hj | rfl
        · rw [hst.2] at hj
          exact h.2.2.2 j hj
        · refine snapshot_ok_update _ _ ?_
          rw [hst.1, h.1]
          decide

lemma reocr_finish_trace_ok (engine : Nat → EngineCall) (now total : Nat)
    (r : StepResult) (h : pipe_ok (StepResult.state r)) :
    ∀ j ∈ (reocr_finish engine now total r).trace, snapshot_ok j := by
  cases r with
  | err m s1 =>
    simp only [StepResult.state] at h
    simp only [reocr_finish]
    intro j hj
    simp only [List.mem_append, List.mem_singleton] at hj
    rcases hj with hj | rfl
    · exact h.2.2.2 j hj
    · exact snapshot_ok_mark_failed now (some m) s1.job h.2.1 h.2.2.1
  | ok s1 =>
    simp only [StepResult.state] at h
    cases hf : flush_batch engine s1 with
    | err m s2 =>
      have hst := flush_batch_state engine s1
      rw [hf] at hst
      simp only [StepResult.state] at hst
      simp only [reocr_finish, hf]
      intro j hj
      simp only [List.mem_append, List.mem_singleton] at hj
      rcases hj with hj | rfl
      · rw [hst.2] at hj
        exact h.2.2.2 j hj
      · refine snapshot_ok_mark_failed now (some m) s2.job ?_ ?_ <;>
          rw [hst.1]
        · exact h.2.1
        · exact h.2.2.1
    | ok s2 =>
      have hst := flush_batch_state engine s1
      rw [hf] at hst
      simp only [StepResult.state] at hst
      simp only [reocr_finish, hf]
      intro j hj
      simp only [List.mem_append, List.mem_cons, List.mem_singleton,
        List.not_mem_nil, or_false] at hj
      rcases hj with hj | rfl | rfl
      · rw [hst.2] at hj
        exact h.2.2.2 j hj
      · refine snapshot_ok_update _ _ ?_
        rw [hst.1, h.1]
        decide
      · exact snapshot_ok_mark_finished now _

lemma record_loop_state_ok (total : Nat) :
    ∀ (items : List (Except String Nat)) (idx : Nat) (s : RecState),
      rec_ok s → rec_ok ((record_loop total items idx s).state) := by
  intro items
  induction items with
  | nil => intro idx s h; exact h
  | cons r rest ih =>
    intro idx s h
    cases r with
    | error m =>
      simp only [record_loop, RecStepResult.state]
      exact h
    | ok c =>
      simp only [record_loop]
      apply ih
      unfold rec_ok at h ⊢
      refine ⟨?_, ?_, ?_, ?_⟩
      · rw [update_job_progress_status]
        exact h.1
      · exact (update_job_progress_bounds _ _).1
      · exact (update_job_progress_bounds _ _).2
      · intro j hj
        simp only [List.mem_append, List.mem_singleton] at hj
        rcases hj with hj | rfl
        · exact h.2.2.2 j hj
        · refine snapshot_ok_update _ _ ?_
          rw [h.1]
          decide

lemma record_finish_trace_ok (now pages : Nat) (r : RecStepResult)
    (h : rec_ok (RecStepResult.state r)) :
    ∀ j ∈ (record_finish now pages r).trace, snapshot_ok j := by
  cases r with
  | err m s =>
    simp only [RecStepResult.state] at h
    simp only [record_finish]
    intro j hj
    simp only [List.mem_append, List.mem_singleton] at hj
    rcases hj with hj | rfl
    · exact h.2.2.2 j hj
    · exact snapshot_ok_mark_failed now (some m) s.job h.2.1 h.2.2.1
  | ok s =>
    simp only [RecStepResult.state] at h
    simp only [record_finish]
    intro j hj
    simp only [List.mem_append, List.mem_singleton] at hj
    rcases hj with hj | rfl
    · exact h.2.2.2 j hj
    · exact snapshot_ok_mark_finished now _

/-- C3 (amended): in both pipeline tasks every persisted snapshot has
progress in [0, 100], and a snapshot with status finished always shows
progress 100; the converse direction of the original claim fails (see the
counterexample): the record task persists the final page's progress-100
write while the job is still running, one save before the finished
transition (the box-level task behaves the same way when its
spec-modelled engine-handle acquisition succeeds). -/
theorem c3_progress_invariant :
    ∀ (envI : ReocrEnv) (envR : RecordEnv) (j0 : Job),
      0 ≤ j0.progress → j0.progress ≤ 100 →
      (∀ j ∈ (run_item_reocr_job envI j0).trace,
        0 ≤ j.progress ∧ j.progress ≤ 100 ∧
          (j.status = Status.finished → j.progress = 100)) ∧
      (∀ j ∈ (run_record_ocr_job envR j0).trace,
        0 ≤ j.progress ∧ j.progress ≤ 100 ∧
          (j.status = Status.finished → j.progress = 100)) := by
  intro envI envR j0 hp0 hp1
  have hrun : snapshot_ok (mark_running envI.now j0) :=
    snapshot_ok_mark_running envI.now j0 hp0 hp1
  have hrunR : snapshot_ok (mark_running envR.now j0) :=
    snapshot_ok_mark_running envR.now j0 hp0 hp1
  have hbounds := And.intro (mark_running_progress envI.now j0)
    (mark_running_status envI.now j0)
  constructor
  · cases hw : envI.workspace with
    | error mw =>
      simp only [run_item_reocr_job, hw]
      intro j hj
      simp only [List.mem_cons, List.not_mem_nil, or_false] at hj
      rcases hj with rfl | rfl | rfl
      · exact hrun
      · refine snapshot_ok_mark_failed _ _ _ ?_ ?_ <;>
          rw [mark_running_progress] <;> assumption
      · refine snapshot_ok_mark_failed _ _ _ ?_ ?_ <;>
          simp only [mark_failed, mark_running_progress] <;> assumption
    | ok u =>
      cases u
      cases hi : envI.item with
      | error mi =>
        simp only [run_item_reocr_job, hw, hi]
        intro j hj
        simp only [List.mem_cons, List.not_mem_nil, or_false] at hj
        rcases hj with rfl | rfl | rfl
        · exact hrun
        · refine snapshot_ok_mark_failed _ _ _ ?_ ?_ <;>
            rw [mark_running_progress] <;> assumption
        · refine snapshot_ok_mark_failed _ _ _ ?_ ?_ <;>
            simp only [mark_failed, mark_running_progress] <;> assumption
      | ok u2 =>
        cases u2
        by_cases hs : envI.shapes = []
        · simp only [run_item_reocr_job, hw, hi, if_pos hs]
          intro j hj
          simp only [List.mem_cons, List.not_mem_nil, or_false] at hj
          rcases hj with rfl | rfl
          · exact hrun
          · refine snapshot_ok_mark_failed _ _ _ ?_ ?_ <;>
              rw [mark_running_progress] <;> assumption
        · cases hrec : get_text_recognition_engine envI with
          | error me =>
            simp only [run_item_reocr_job, hw, hi, if_neg hs, hrec]
            intro j hj
            simp only [List.mem_cons, List.not_mem_nil, or_false] at hj
            rcases hj with rfl | rfl
            · exact hrun
            · refine snapshot_ok_mark_failed _ _ _ ?_ ?_ <;>
                rw [mark_running_progress] <;> assumption
          | ok u3 =>
            cases u3
            by_cases he :
                shape_entries envI.shapes envI.width envI.height = []
            · simp only [run_item_reocr_job, hw, hi, if_neg hs, hrec,
                if_pos he]
              intro j hj
              simp only [List.mem_cons, List.not_mem_nil, or_false] at hj
              rcases hj with rfl | rfl | rfl
              · exact hrun
              · exact snapshot_ok_update _ _
                  (by rw [mark_running_status]; decide)
              · exact snapshot_ok_mark_failed _ _ _
                  (update_job_progress_bounds _ _).1
                  (update_job_progress_bounds _ _).2
            · simp only [run_item_reocr_job, hw, hi, if_neg hs, hrec,
                if_neg he]
              apply reocr_finish_trace_ok
              apply entries_loop_state_ok
              refine ⟨?_, ?_, ?_, ?_⟩
              · rw [update_job_progress_status]
                exact mark_running_status _ _
              · exact (update_job_progress_bounds _ _).1
              · exact (update_job_progress_bounds _ _).2
              · intro j hj
                simp only [List.mem_cons, List.not_mem_nil, or_false] at hj
                rcases hj with rfl | rfl
                · exact hrun
                · exact snapshot_ok_update _ _
                    (by rw [mark_running_status]; decide)
  · cases hw : envR.workspace with
    | error mw =>
      simp only [run_record_ocr_job, hw]
      intro j hj
      simp only [List.mem_cons, List.not_mem_nil, or_false] at hj
      rcases hj with rfl | rfl | rfl
      · exact hrunR
      · refine snapshot_ok_mark_failed _ _ _ ?_ ?_ <;>
          rw [mark_running_progress] <;> assumption
      · refine snapshot_ok_mark_failed _ _ _ ?_ ?_ <;>
          simp only [mark_failed, mark_running_progress] <;> assumption
    | ok u =>
      cases u
      simp only [run_record_ocr_job, hw]
      apply record_finish_trace_ok
      apply record_loop_state_ok
      refine ⟨mark_running_status _ _, ?_, ?_, ?_⟩
      · rw [mark_running_progress]; exact hp0
      · rw [mark_running_progress]; exact hp1
      · intro j hj
        simp only [List.mem_singleton] at hj
        subst hj
        exact hrunR

/-- C3 counterexample to the original claim: in a record run over one page
the last-page progress write int(1/1*100) = 100 is persisted while the
status is still running, one save before the finished transition, so
progress = 100 does not imply status = finished. -/
theorem c3_progress_iff_counterexample :
    ∃ j ∈ (run_record_ocr_job
        { workspace := Except.ok (), items := [Except.ok 3], now := 7 }
        job0).trace,
      j.progress = 100 ∧ j.status = Status.running := by
  decide

/-- C3 witness: the invariant instantiated on the one-shape box-level run
and a one-page record run. -/
theorem c3_progress_invariant_witness :
    (∀ j ∈ (run_item_reocr_job env1 job0).trace,
      0 ≤ j.progress ∧ j.progress ≤ 100 ∧
        (j.status = Status.finished → j.progress = 100)) ∧
    (∀ j ∈ (run_record_ocr_job
        { workspace := Except.ok (), items := [Except.ok 2], now := 3 }
        job0).trace,
      0 ≤ j.progress ∧ j.progress ≤ 100 ∧
        (j.status = Status.finished → j.progress = 100)) :=
  c3_progress_invariant env1
    { workspace := Except.ok (), items := [Except.ok 2], now := 3 } job0
    (by decide) (by decide)
